import Mathlib

/-!
Shallow embedding of `src/app/server.go` (a small HTTP/1.1 server with echo,
user-agent and file routes plus gzip negotiation), together with proofs about
its routing, response framing, content negotiation and file round-trip
behaviour.

Bytes are modelled by Lean `String`/`List Char` (one `Char` per byte; the
source only ever concatenates and compares byte strings, which `String`
models faithfully).  The gzip compressor from Go's `compress/gzip` is an
external library; it enters the model as an explicit parameter
`gz : String → Option String` (`none` models a failing `gzip.Writer.Write`).
The filesystem under the serve directory is modelled as a path-to-contents
association list on which `os.WriteFile` always succeeds; `filepath.Join`
from the Go standard library is likewise an explicit parameter `jp`.
-/

namespace CCHttp

/-- Status and content-type constants from the `const` block of
`src/app/server.go`. -/
def StatusOK : String := "200 OK"

def StatusCreated : String := "201 Created"

def StatusNotFound : String := "404 Not Found"

def StatusInternalServerError : String := "500 Internal Server Error"

def contentTypePlainText : String := "text/plain"

def contentTypeOctetStream : String := "application/octet-stream"

def bufferSize : Nat := 4096

/-- One parsed HTTP request, holding exactly the fields of Go's
`net/http.Request` that `server.go` reads: `acceptEncoding` models
`request.Header.Get "Accept-Encoding"` (the empty string when the header is
absent; the case-insensitive name lookup happens inside the Go standard
library), `userAgent` models `request.UserAgent()`, and `body` the bytes
returned by `io.ReadAll request.Body`. -/
structure Request where
  method : String
  path : String
  acceptEncoding : String
  userAgent : String
  body : String

/-- A response as emitted on one connection: the status string, the header
lines in emission order, and the body writes.  Go performs the status line,
all header lines and the terminating blank line as one `conn.Write`, then
each body write separately; `HttpOut.writes` recovers that call sequence and
`HttpOut.bytes` the raw byte stream. -/
structure HttpOut where
  status : String
  headerLines : List String
  bodyWrites : List String
deriving DecidableEq

/-- Concatenation of a sequence of `conn.Write` payloads. -/
def joinWrites : List String → String
  | [] => ""
  | w :: ws => w ++ joinWrites ws

/-- The `conn.Write` call sequence of a response. -/
def HttpOut.writes (o : HttpOut) : List String :=
  ("HTTP/1.1 " ++ o.status ++ "\r\n" ++ joinWrites o.headerLines ++ "\r\n") :: o.bodyWrites

/-- The raw bytes a response puts on the connection. -/
def HttpOut.bytes (o : HttpOut) : String :=
  joinWrites o.writes

/-- The body bytes of a response (everything after the blank line). -/
def HttpOut.bodyBytes (o : HttpOut) : String :=
  joinWrites o.bodyWrites

/-- The `Content-Encoding` header line appended when a content encoding was
negotiated (`if contentEncoding != nil` in the source). -/
def ceLines : Option String → List String
  | some e => ["Content-Encoding: " ++ e ++ "\r\n"]
  | none => []

/-- Model of `HttpResponse` (src/app/server.go lines 29-62).  `gz` is the
compressor built from `compress/gzip` (`gzip.NewWriter` into a buffer,
`Write`, `Close`); `gz b = none` models `gw.Write body` reporting an error,
in which case the source writes the already-built header string (which still
holds the Content-Encoding line) followed by the uncompressed body, with no
Content-Length line. -/
def HttpResponse (gz : String → Option String) (status : String) (body : Option String)
    (contentType : String) (contentEncoding : Option String) : HttpOut :=
  let baseHeaders : List String :=
    ("Content-Type: " ++ contentType ++ "\r\n") :: ceLines contentEncoding
  match body with
  | some b =>
    match (if contentEncoding = some "gzip" then gz b else some b) with
    | none =>
      { status := status, headerLines := baseHeaders, bodyWrites := [b] }
    | some compressedBody =>
      { status := status,
        headerLines := baseHeaders ++
          ["Content-Length: " ++ toString compressedBody.length ++ "\r\n"],
        bodyWrites := [compressedBody] }
  | none =>
    { status := status, headerLines := baseHeaders, bodyWrites := [] }

/-- Go `strings.Split` with a one-character separator (the source only splits
on `","`), and the splitting phase of `strings.FieldsFunc` on `'/'` before
empty fields are discarded.  `acc` is the current field, reversed. -/
def splitOnCharAcc (sep : Char) (acc : List Char) : List Char → List (List Char)
  | [] => [acc.reverse]
  | c :: rest =>
    if c = sep then acc.reverse :: splitOnCharAcc sep [] rest
    else splitOnCharAcc sep (c :: acc) rest

def splitOnChar (sep : Char) (l : List Char) : List (List Char) :=
  splitOnCharAcc sep [] l

/-- Go `unicode.IsSpace` restricted to the ASCII whitespace characters (the
only ones the proofs below ever feed it). -/
def isSpaceChar (c : Char) : Bool :=
  c = ' ' || c = '\t' || c = '\n' || c = '\r' || c = '\x0b' || c = '\x0c'

/-- Go `strings.TrimSpace`. -/
def trimChars (l : List Char) : List Char :=
  ((l.dropWhile isSpaceChar).reverse.dropWhile isSpaceChar).reverse

def supportedEncodings : List String := ["gzip"]

/-- The Accept-Encoding negotiation loop of `Handler` (src/app/server.go
lines 113-130): split the header value on commas, trim each piece, and pick
the first piece equal to some supported encoding. -/
def negotiate (acceptEncoding : String) : Option String :=
  ((splitOnChar ',' acceptEncoding.data).map (fun a => (⟨trimChars a⟩ : String))).find?
    (fun a => supportedEncodings.contains a)

/-- `GetPathSegments` (src/app/server.go lines 64-68): `strings.FieldsFunc`
on `'/'`, i.e. split on slashes and discard the empty pieces. -/
def GetPathSegments (path : String) : List String :=
  ((splitOnChar '/' path.data).filter (fun s => !s.isEmpty)).map
    (fun s => (⟨s⟩ : String))

def validPaths : List String := ["echo", "user-agent", "files"]

/-- `ProcessPath` (src/app/server.go lines 70-90); `none` models the
`errors.New "invalid path"` result. -/
def ProcessPath (path : String) : Option (List String) :=
  match GetPathSegments path with
  | [] => some []
  | s0 :: rest =>
    if s0 ∈ validPaths then
      match rest with
      | [] => some [s0]
      | s1 :: _ => some [s0, s1]
    else none

/-- The files under the serve directory: a joined-path-to-contents map.
`os.WriteFile` (create or truncate) prepends; `os.Open` plus `Stat` plus the
read loop observe the mapped contents. -/
abbrev FS := List (String × String)

def lookupFS : FS → String → Option String
  | [], _ => none
  | (q, v) :: rest, p => if p = q then some v else lookupFS rest p

def writeFS (fs : FS) (p v : String) : FS := (p, v) :: fs

/-- One `file.Read buffer` outcome inside the files-GET copy loop: a chunk of
at most `bufferSize` bytes (empty meaning end of stream), or a non-EOF read
error. -/
inductive ReadEvent where
  | chunk (data : String)
  | readErr
deriving DecidableEq

/-- The files-GET copy loop (src/app/server.go lines 190-201): write each
chunk, stop at an empty read, and on a read error call `HttpResponse` with
status 500 — so a whole further response goes onto the connection.  The
result is the sequence of `conn.Write` payloads the loop performs. -/
def streamLoop (gz : String → Option String) : List ReadEvent → List String
  | [] => []
  | ReadEvent.chunk d :: rest =>
    if d = "" then [] else d :: streamLoop gz rest
  | ReadEvent.readErr :: _ =>
    (HttpResponse gz StatusInternalServerError none contentTypePlainText none).writes

/-- Reading a file of known contents through the 4096-byte buffer: `acc` is
the chunk being filled (reversed), `k` the free space left in it. -/
def chunkAux : List Char → List Char → Nat → List (List Char)
  | [], [], _ => []
  | [], acc, _ => [acc.reverse]
  | c :: rest, acc, 0 => acc.reverse :: chunkAux rest [c] (bufferSize - 1)
  | c :: rest, acc, Nat.succ k => chunkAux rest (c :: acc) k

def chunksOf (l : List Char) : List (List Char) :=
  chunkAux l [] bufferSize

/-- The read outcomes of an error-free pass over a file with the given
contents. -/
def readScriptOf (s : String) : List ReadEvent :=
  (chunksOf s.data).map (fun c => ReadEvent.chunk ⟨c⟩)

/-- `handleEcho` (src/app/server.go lines 144-151). -/
def handleEcho (gz : String → Option String) (pathSegments : List String)
    (contentEncoding : Option String) : HttpOut :=
  match pathSegments with
  | _ :: s :: _ => HttpResponse gz StatusOK (some s) contentTypePlainText contentEncoding
  | _ => HttpResponse gz StatusOK none contentTypePlainText contentEncoding

/-- `handleUserAgent` (src/app/server.go lines 153-157); `[]byte` of a Go
string is never nil, so the body is always materialized. -/
def handleUserAgent (gz : String → Option String) (req : Request)
    (contentEncoding : Option String) : HttpOut :=
  HttpResponse gz StatusOK (some req.userAgent) contentTypePlainText contentEncoding

/-- `handleFiles` (src/app/server.go lines 159-219).  `jp` is
`filepath.Join`.  Returns the filesystem after the request together with the
response; the GET branch emits the hand-built header write followed by the
copy loop's writes (note the source appends Content-Encoding after
Content-Length there), the POST branch stores the body and answers 201 with
the content-encoding pointer left nil. -/
def handleFiles (gz : String → Option String) (jp : String → String → String)
    (req : Request) (directory : String) (fs : FS) (pathSegments : List String)
    (contentEncoding : Option String) : FS × HttpOut :=
  match pathSegments with
  | _ :: fname :: _ =>
    let filePath := jp directory fname
    if req.method = "GET" then
      match lookupFS fs filePath with
      | none => (fs, HttpResponse gz StatusNotFound none contentTypePlainText none)
      | some contents =>
        (fs,
          { status := StatusOK,
            headerLines :=
              ["Content-Type: " ++ contentTypeOctetStream ++ "\r\n",
               "Content-Length: " ++ toString contents.length ++ "\r\n"] ++
                ceLines contentEncoding,
            bodyWrites := streamLoop gz (readScriptOf contents) })
    else if req.method = "POST" then
      (writeFS fs filePath req.body,
        HttpResponse gz StatusCreated none contentTypePlainText none)
    else (fs, HttpResponse gz StatusNotFound none contentTypePlainText none)
  | _ => (fs, HttpResponse gz StatusNotFound none contentTypePlainText none)

/-- `Handler` (src/app/server.go lines 92-142) after a successful
`http.ReadRequest`: route the parsed request and produce the response (and
the filesystem left behind).  The 500 answer to a failed `ReadRequest` is
the separate `HttpResponse gz StatusInternalServerError none
contentTypePlainText none`. -/
def Handler (gz : String → Option String) (jp : String → String → String)
    (req : Request) (directory : String) (fs : FS) : FS × HttpOut :=
  match ProcessPath req.path with
  | none => (fs, HttpResponse gz StatusNotFound none contentTypePlainText none)
  | some [] => (fs, HttpResponse gz StatusOK none contentTypePlainText none)
  | some (s0 :: rest) =>
    let contentEncoding := negotiate req.acceptEncoding
    if s0 = "echo" then (fs, handleEcho gz (s0 :: rest) contentEncoding)
    else if s0 = "user-agent" then (fs, handleUserAgent gz req contentEncoding)
    else if s0 = "files" then handleFiles gz jp req directory fs (s0 :: rest) contentEncoding
    else (fs, HttpResponse gz StatusNotFound none contentTypePlainText none)

/-! Helper lemmas shared by the claim proofs. -/

theorem string_eta (s : String) : (⟨s.data⟩ : String) = s := rfl

theorem string_mk_append (a b : List Char) : (⟨a⟩ : String) ++ ⟨b⟩ = ⟨a ++ b⟩ := rfl

theorem string_mk_eq_empty_iff (l : List Char) : (⟨l⟩ : String) = "" ↔ l = [] := by
  constructor
  · intro h; exact congrArg String.data h
  · intro h; rw [h]

theorem data_ne_nil_of_ne_empty (f : String) (h : f ≠ "") : f.data ≠ [] := by
  intro hd
  apply h
  cases f
  simp_all

theorem joinWrites_cons (w : String) (ws : List String) :
    joinWrites (w :: ws) = w ++ joinWrites ws := rfl

theorem joinWrites_singleton (w : String) : joinWrites [w] = w := by
  show w ++ "" = w
  simp

theorem splitOnCharAcc_no_sep (sep : Char) (acc : List Char) (l : List Char)
    (h : ∀ c ∈ l, c ≠ sep) :
    splitOnCharAcc sep acc l = [acc.reverse ++ l] := by
  induction l generalizing acc with
  | nil => simp [splitOnCharAcc]
  | cons c rest ih =>
    have hc : c ≠ sep := h c (by simp)
    simp [splitOnCharAcc, hc, ih (c :: acc) (fun x hx => h x (by simp [hx])),
      List.append_assoc]

theorem getPathSegments_files_arg (f : String) (h1 : f ≠ "") (h2 : ∀ c ∈ f.data, c ≠ '/') :
    GetPathSegments ("/files/" ++ f) = ["files", f] := by
  have hd : ("/files/" ++ f).data = '/' :: 'f' :: 'i' :: 'l' :: 'e' :: 's' :: '/' :: f.data := rfl
  have hsplit : splitOnChar '/' ('/' :: 'f' :: 'i' :: 'l' :: 'e' :: 's' :: '/' :: f.data)
      = [] :: ['f', 'i', 'l', 'e', 's'] :: splitOnCharAcc '/' [] f.data := by
    simp [splitOnChar, splitOnCharAcc]
  rw [GetPathSegments, hd, hsplit, splitOnCharAcc_no_sep '/' [] f.data h2]
  cases hfd : f.data with
  | nil => exact absurd hfd (data_ne_nil_of_ne_empty f h1)
  | cons c cs =>
    show List.map _ (List.filter _ [[], ['f', 'i', 'l', 'e', 's'], c :: cs]) = _
    rw [show (["files", f] : List String) = ["files", ⟨c :: cs⟩] from by rw [← hfd, string_eta]]
    rfl

theorem processPath_of_segments (path s0 : String) (rest : List String)
    (h : GetPathSegments path = s0 :: rest) (hv : s0 ∈ validPaths) :
    ProcessPath path = some (s0 :: rest.take 1) := by
  simp only [ProcessPath, h]
  rw [if_pos hv]
  cases rest <;> rfl

theorem processPath_unknown (path s0 : String) (rest : List String)
    (h : GetPathSegments path = s0 :: rest) (hv : s0 ∉ validPaths) :
    ProcessPath path = none := by
  simp only [ProcessPath, h]
  rw [if_neg hv]

theorem processPath_root (path : String) (h : GetPathSegments path = []) :
    ProcessPath path = some [] := by
  simp only [ProcessPath, h]

theorem handler_route (gz : String → Option String) (jp : String → String → String)
    (req : Request) (directory : String) (fs : FS) (s0 : String) (rest : List String)
    (h : GetPathSegments req.path = s0 :: rest) (hv : s0 ∈ validPaths) :
    Handler gz jp req directory fs =
      (if s0 = "echo" then
        (fs, handleEcho gz (s0 :: rest.take 1) (negotiate req.acceptEncoding))
      else if s0 = "user-agent" then
        (fs, handleUserAgent gz req (negotiate req.acceptEncoding))
      else if s0 = "files" then
        handleFiles gz jp req directory fs (s0 :: rest.take 1) (negotiate req.acceptEncoding)
      else (fs, HttpResponse gz StatusNotFound none contentTypePlainText none)) := by
  simp only [Handler, processPath_of_segments req.path s0 rest h hv]

theorem handler_unknown (gz : String → Option String) (jp : String → String → String)
    (req : Request) (directory : String) (fs : FS) (s0 : String) (rest : List String)
    (h : GetPathSegments req.path = s0 :: rest) (hv : s0 ∉ validPaths) :
    Handler gz jp req directory fs =
      (fs, HttpResponse gz StatusNotFound none contentTypePlainText none) := by
  simp only [Handler, processPath_unknown req.path s0 rest h hv]

theorem handler_root (gz : String → Option String) (jp : String → String → String)
    (req : Request) (directory : String) (fs : FS)
    (h : GetPathSegments req.path = []) :
    Handler gz jp req directory fs =
      (fs, HttpResponse gz StatusOK none contentTypePlainText none) := by
  simp only [Handler, processPath_root req.path h]

theorem streamLoop_chunkAux (gz : String → Option String) (l : List Char) :
    ∀ (acc : List Char) (k : Nat), acc.length + k = bufferSize →
    joinWrites (streamLoop gz ((chunkAux l acc k).map (fun c => ReadEvent.chunk ⟨c⟩)))
      = ⟨acc.reverse ++ l⟩ := by
  induction l with
  | nil =>
    intro acc k hinv
    cases acc with
    | nil => rfl
    | cons a as =>
      show joinWrites (streamLoop gz [ReadEvent.chunk ⟨(a :: as).reverse⟩]) = _
      have hne : (⟨(a :: as).reverse⟩ : String) ≠ "" := by
        intro h
        have := (string_mk_eq_empty_iff _).mp h
        simp at this
      rw [streamLoop, if_neg hne, streamLoop, joinWrites_singleton]
      rw [List.append_nil]
  | cons c rest ih =>
    intro acc k hinv
    cases k with
    | zero =>
      have hacc : acc ≠ [] := by
        intro h
        rw [h] at hinv
        simp [bufferSize] at hinv
      show joinWrites (streamLoop gz (ReadEvent.chunk ⟨acc.reverse⟩ ::
        (chunkAux rest [c] (bufferSize - 1)).map (fun c => ReadEvent.chunk ⟨c⟩))) = _
      have hne : (⟨acc.reverse⟩ : String) ≠ "" := by
        intro h
        have := (string_mk_eq_empty_iff _).mp h
        simp [hacc] at this
      rw [streamLoop, if_neg hne, joinWrites_cons,
        ih [c] (bufferSize - 1) (by simp [bufferSize]), string_mk_append]
      simp
    | succ k =>
      show joinWrites (streamLoop gz ((chunkAux rest (c :: acc) k).map
        (fun c => ReadEvent.chunk ⟨c⟩))) = _
      rw [ih (c :: acc) k (by simp at hinv ⊢; omega)]
      simp [List.append_assoc]

theorem streamLoop_readScriptOf (gz : String → Option String) (s : String) :
    joinWrites (streamLoop gz (readScriptOf s)) = s := by
  have h := streamLoop_chunkAux gz s.data [] bufferSize (by simp)
  rw [readScriptOf, chunksOf, h]
  exact string_eta s

theorem supported_contains_iff (a : String) :
    supportedEncodings.contains a = true ↔ a = "gzip" := by
  simp [supportedEncodings]

theorem negotiate_spec (ae : String) :
    (negotiate ae = some "gzip" ↔
      "gzip" ∈ (splitOnChar ',' ae.data).map (fun a => (⟨trimChars a⟩ : String))) ∧
    (∀ e, negotiate ae = some e → e = "gzip") := by
  constructor
  · constructor
    · intro h
      exact List.mem_of_find?_eq_some h
    · intro hm
      cases hf : negotiate ae with
      | none =>
        exfalso
        have := List.find?_eq_none.mp hf "gzip" hm
        rw [supported_contains_iff] at this
        exact this rfl
      | some e =>
        have he : e = "gzip" := (supported_contains_iff e).mp (List.find?_some hf)
        rw [he]
  · intro e he
    exact (supported_contains_iff e).mp (List.find?_some he)

theorem negotiate_empty : negotiate "" = none := by decide

theorem negotiate_cases (ae : String) :
    negotiate ae = none ∨ negotiate ae = some "gzip" := by
  cases h : negotiate ae with
  | none => exact Or.inl rfl
  | some e => exact Or.inr (by rw [← (negotiate_spec ae).2 e h])

theorem HttpResponse_nobody (gz : String → Option String) (status ct : String)
    (ce : Option String) :
    HttpResponse gz status none ct ce =
      { status := status,
        headerLines := ("Content-Type: " ++ ct ++ "\r\n") :: ceLines ce,
        bodyWrites := [] } := rfl

theorem HttpResponse_body_plain (gz : String → Option String) (status b ct : String) :
    HttpResponse gz status (some b) ct none =
      { status := status,
        headerLines := ["Content-Type: " ++ ct ++ "\r\n",
          "Content-Length: " ++ toString b.length ++ "\r\n"],
        bodyWrites := [b] } := rfl

theorem HttpResponse_body_gzip (gz : String → Option String) (status b ct c : String)
    (h : gz b = some c) :
    HttpResponse gz status (some b) ct (some "gzip") =
      { status := status,
        headerLines := ["Content-Type: " ++ ct ++ "\r\n", "Content-Encoding: gzip\r\n",
          "Content-Length: " ++ toString c.length ++ "\r\n"],
        bodyWrites := [c] } := by
  simp [HttpResponse, h, ceLines]

theorem HttpResponse_body_gzip_fail (gz : String → Option String) (status b ct : String)
    (h : gz b = none) :
    HttpResponse gz status (some b) ct (some "gzip") =
      { status := status,
        headerLines := ["Content-Type: " ++ ct ++ "\r\n", "Content-Encoding: gzip\r\n"],
        bodyWrites := [b] } := by
  simp [HttpResponse, h, ceLines]

theorem handler_echo_arg (gz : String → Option String) (jp : String → String → String)
    (req : Request) (directory : String) (fs : FS) (s : String) (rest : List String)
    (h : GetPathSegments req.path = "echo" :: s :: rest) :
    Handler gz jp req directory fs =
      (fs, HttpResponse gz StatusOK (some s) contentTypePlainText
        (negotiate req.acceptEncoding)) := by
  rw [handler_route gz jp req directory fs "echo" (s :: rest) h (by decide)]
  rfl

theorem handler_echo_bare (gz : String → Option String) (jp : String → String → String)
    (req : Request) (directory : String) (fs : FS)
    (h : GetPathSegments req.path = ["echo"]) :
    Handler gz jp req directory fs =
      (fs, HttpResponse gz StatusOK none contentTypePlainText
        (negotiate req.acceptEncoding)) := by
  rw [handler_route gz jp req directory fs "echo" [] h (by decide)]
  rfl

theorem handler_user_agent_eq (gz : String → Option String) (jp : String → String → String)
    (req : Request) (directory : String) (fs : FS) (rest : List String)
    (h : GetPathSegments req.path = "user-agent" :: rest) :
    Handler gz jp req directory fs =
      (fs, HttpResponse gz StatusOK (some req.userAgent) contentTypePlainText
        (negotiate req.acceptEncoding)) := by
  rw [handler_route gz jp req directory fs "user-agent" rest h (by decide)]
  rfl

theorem handler_files_bare (gz : String → Option String) (jp : String → String → String)
    (req : Request) (directory : String) (fs : FS)
    (h : GetPathSegments req.path = ["files"]) :
    Handler gz jp req directory fs =
      (fs, HttpResponse gz StatusNotFound none contentTypePlainText none) := by
  rw [handler_route gz jp req directory fs "files" [] h (by decide)]
  rfl

theorem handler_files_get_found (gz : String → Option String) (jp : String → String → String)
    (req : Request) (directory : String) (fs : FS) (f : String) (rest : List String)
    (contents : String)
    (h : GetPathSegments req.path = "files" :: f :: rest)
    (hm : req.method = "GET")
    (hf : lookupFS fs (jp directory f) = some contents) :
    Handler gz jp req directory fs =
      (fs, { status := StatusOK,
             headerLines := ["Content-Type: " ++ contentTypeOctetStream ++ "\r\n",
               "Content-Length: " ++ toString contents.length ++ "\r\n"] ++
               ceLines (negotiate req.acceptEncoding),
             bodyWrites := streamLoop gz (readScriptOf contents) }) := by
  rw [handler_route gz jp req directory fs "files" (f :: rest) h (by decide)]
  show handleFiles gz jp req directory fs ["files", f] (negotiate req.acceptEncoding) = _
  simp only [handleFiles, hm, hf]
  rfl

theorem handler_files_get_missing (gz : String → Option String) (jp : String → String → String)
    (req : Request) (directory : String) (fs : FS) (f : String) (rest : List String)
    (h : GetPathSegments req.path = "files" :: f :: rest)
    (hm : req.method = "GET")
    (hf : lookupFS fs (jp directory f) = none) :
    Handler gz jp req directory fs =
      (fs, HttpResponse gz StatusNotFound none contentTypePlainText none) := by
  rw [handler_route gz jp req directory fs "files" (f :: rest) h (by decide)]
  show handleFiles gz jp req directory fs ["files", f] (negotiate req.acceptEncoding) = _
  simp only [handleFiles, hm, hf]
  rfl

theorem handler_files_post (gz : String → Option String) (jp : String → String → String)
    (req : Request) (directory : String) (fs : FS) (f : String) (rest : List String)
    (h : GetPathSegments req.path = "files" :: f :: rest)
    (hm : req.method = "POST") :
    Handler gz jp req directory fs =
      (writeFS fs (jp directory f) req.body,
        HttpResponse gz StatusCreated none contentTypePlainText none) := by
  rw [handler_route gz jp req directory fs "files" (f :: rest) h (by decide)]
  show handleFiles gz jp req directory fs ["files", f] (negotiate req.acceptEncoding) = _
  simp only [handleFiles, hm]
  rfl

theorem handler_files_bad_method (gz : String → Option String) (jp : String → String → String)
    (req : Request) (directory : String) (fs : FS) (f : String) (rest : List String)
    (h : GetPathSegments req.path = "files" :: f :: rest)
    (hg : req.method ≠ "GET") (hp : req.method ≠ "POST") :
    Handler gz jp req directory fs =
      (fs, HttpResponse gz StatusNotFound none contentTypePlainText none) := by
  rw [handler_route gz jp req directory fs "files" (f :: rest) h (by decide)]
  show handleFiles gz jp req directory fs ["files", f] (negotiate req.acceptEncoding) = _
  simp only [handleFiles]
  rw [if_neg hg, if_neg hp]

theorem HttpResponse_status (gz : String → Option String) (status : String)
    (body : Option String) (ct : String) (ce : Option String) :
    (HttpResponse gz status body ct ce).status = status := by
  rw [HttpResponse.eq_def]
  cases body with
  | none => rfl
  | some b =>
    dsimp only
    split <;> rfl

theorem HttpResponse_head_ct (gz : String → Option String) (status : String)
    (body : Option String) (ct : String) (ce : Option String) :
    (HttpResponse gz status body ct ce).headerLines.head? =
      some ("Content-Type: " ++ ct ++ "\r\n") := by
  rw [HttpResponse.eq_def]
  cases body with
  | none => rfl
  | some b =>
    dsimp only
    split <;> rfl

/-! The claims. -/

/-- Claim C8: the path router splits on slashes discarding empty segments (so
`/echo/`, `/echo` and `//echo` normalize identically); its output is empty for
the root path, one element for a bare known route, and for a known route with
an argument the two-element sequence of the route and exactly the second
non-empty path component, with any later components silently dropped. -/
theorem path_router_splits_and_truncates (path : String) :
    ("" ∉ GetPathSegments path) ∧
    (GetPathSegments "/echo/" = ["echo"] ∧ GetPathSegments "/echo" = ["echo"] ∧
      GetPathSegments "//echo" = ["echo"]) ∧
    (GetPathSegments path = [] → ProcessPath path = some []) ∧
    (∀ r rest, GetPathSegments path = r :: rest → r ∈ validPaths →
      ProcessPath path = some (r :: rest.take 1)) := by
  refine ⟨?_, by decide, processPath_root path,
    fun r rest h hv => processPath_of_segments path r rest h hv⟩
  intro hmem
  rw [GetPathSegments] at hmem
  obtain ⟨s, hs, hmk⟩ := List.mem_map.mp hmem
  have hkeep := List.of_mem_filter hs
  have hnil : s = [] := (string_mk_eq_empty_iff s).mp hmk
  rw [hnil] at hkeep
  simp at hkeep

/-- Witness for C8 at a concrete input: `/echo/a/b` keeps exactly the first
two non-empty components. -/
theorem path_router_splits_and_truncates_witness :
    ProcessPath "/echo/a/b" = some ["echo", "a"] :=
  (path_router_splits_and_truncates "/echo/a/b").2.2.2 "echo" ["a", "b"]
    (by decide) (by decide)

/-- Claim C9: an unknown first segment, a files route without an argument, and
a files route with a method other than GET or POST all answer 404. -/
theorem unknown_route_and_bad_files_requests_404 (gz : String → Option String)
    (jp : String → String → String) (req : Request) (directory : String) (fs : FS) :
    (∀ s0 rest, GetPathSegments req.path = s0 :: rest → s0 ∉ validPaths →
      (Handler gz jp req directory fs).2.status = StatusNotFound) ∧
    (GetPathSegments req.path = ["files"] →
      (Handler gz jp req directory fs).2.status = StatusNotFound) ∧
    (∀ f rest, GetPathSegments req.path = "files" :: f :: rest →
      req.method ≠ "GET" → req.method ≠ "POST" →
      (Handler gz jp req directory fs).2.status = StatusNotFound) := by
  refine ⟨?_, ?_, ?_⟩
  · intro s0 rest h hv
    rw [handler_unknown gz jp req directory fs s0 rest h hv]
    rfl
  · intro h
    rw [handler_files_bare gz jp req directory fs h]
    rfl
  · intro f rest h hg hp
    rw [handler_files_bad_method gz jp req directory fs f rest h hg hp]
    rfl

/-- Witness for C9 at concrete inputs: `DELETE /files/f` answers 404. -/
theorem unknown_route_and_bad_files_requests_404_witness :
    (Handler (fun s => some s) (fun d f => d ++ "/" ++ f)
      ⟨"DELETE", "/files/f", "", "", ""⟩ "d" []).2.status = StatusNotFound :=
  (unknown_route_and_bad_files_requests_404 (fun s => some s)
      (fun d f => d ++ "/" ++ f) ⟨"DELETE", "/files/f", "", "", ""⟩ "d" []).2.2
    "f" [] (by decide) (by decide) (by decide)

/-- Claim C3 is false as stated: it asks for gzip whenever the substring
`gzip` appears anywhere in the comma-separated, whitespace-trimmed value
list, but for the value `gzip;q=1.0` — where the substring `gzip` plainly
occurs — the negotiation loop selects no encoding, because it compares each
trimmed element for equality with `gzip`. -/
theorem negotiate_substring_counterexample :
    negotiate "gzip;q=1.0" = none ∧
    (∃ l r : String, "gzip;q=1.0" = l ++ "gzip" ++ r) :=
  ⟨by decide, "", ";q=1.0", by decide⟩

/-- Claim C3 (amended): the negotiator selects gzip if and only if some
comma-separated, whitespace-trimmed element of the Accept-Encoding value is
exactly the string `gzip` (element equality, not substring search); otherwise
it selects no encoding, and it never selects any encoding other than gzip. -/
theorem negotiate_selects_gzip_iff_exact_element (ae : String) :
    (negotiate ae = some "gzip" ↔
      "gzip" ∈ (splitOnChar ',' ae.data).map (fun a => (⟨trimChars a⟩ : String))) ∧
    (negotiate ae = none ↔
      "gzip" ∉ (splitOnChar ',' ae.data).map (fun a => (⟨trimChars a⟩ : String))) ∧
    (∀ e, negotiate ae = some e → e = "gzip") := by
  have h := negotiate_spec ae
  refine ⟨h.1, ⟨?_, ?_⟩, h.2⟩
  · intro hn hm
    rw [h.1.mpr hm] at hn
    cases hn
  · intro hnm
    cases negotiate_cases ae with
    | inl h0 => exact h0
    | inr h1 => exact absurd (h.1.mp h1) hnm

/-- Witness for amended C3 at a concrete input: a trimmed element equal to
`gzip` in second position is selected. -/
theorem negotiate_selects_gzip_iff_exact_element_witness :
    negotiate " deflate , gzip " = some "gzip" :=
  (negotiate_selects_gzip_iff_exact_element " deflate , gzip ").1.mpr (by decide)

/-- Claim C4 is false as stated: when the compressor fails, the uncompressed
body is indeed sent and no error surfaces, but the response keeps the
`Content-Encoding: gzip` header line — the header string was assembled before
compression was attempted, and the fallback path writes it unchanged. -/
theorem compression_failure_counterexample :
    (HttpResponse (fun _ => none) StatusOK (some "hello") contentTypePlainText
        (some "gzip")).bodyWrites = ["hello"] ∧
    "Content-Encoding: gzip\r\n" ∈
      (HttpResponse (fun _ => none) StatusOK (some "hello") contentTypePlainText
        (some "gzip")).headerLines := by
  decide

/-- Claim C4 (amended): if compressing a materialized body fails, the server
sends the uncompressed body rather than failing the response or surfacing an
error to the client, but the already-built `Content-Encoding: gzip` header
line stays in the response, and no Content-Length line is emitted. -/
theorem compression_failure_falls_back_uncompressed (gz : String → Option String)
    (status b ct : String) (h : gz b = none) :
    HttpResponse gz status (some b) ct (some "gzip") =
      { status := status,
        headerLines := ["Content-Type: " ++ ct ++ "\r\n", "Content-Encoding: gzip\r\n"],
        bodyWrites := [b] } :=
  HttpResponse_body_gzip_fail gz status b ct h

/-- Witness for amended C4 at a concrete failing compressor. -/
theorem compression_failure_falls_back_uncompressed_witness :
    HttpResponse (fun _ => none) StatusOK (some "x") contentTypePlainText (some "gzip") =
      { status := StatusOK,
        headerLines := ["Content-Type: " ++ contentTypePlainText ++ "\r\n",
          "Content-Encoding: gzip\r\n"],
        bodyWrites := ["x"] } :=
  compression_failure_falls_back_uncompressed (fun _ => none) StatusOK "x"
    contentTypePlainText rfl

/-- Claim C5: for a materialized body with gzip selected, when compression
succeeds the emitted Content-Length is the length of the compressed body (not
of the original), and the emitted write sequence is a single header write —
whose contents are a function of the finished compressed body, so compression
completes before any header byte reaches the connection — followed by the
compressed body as the only further write. -/
theorem compressed_length_before_headers (gz : String → Option String)
    (status b ct c : String) (h : gz b = some c) :
    HttpResponse gz status (some b) ct (some "gzip") =
      { status := status,
        headerLines := ["Content-Type: " ++ ct ++ "\r\n", "Content-Encoding: gzip\r\n",
          "Content-Length: " ++ toString c.length ++ "\r\n"],
        bodyWrites := [c] } ∧
    (HttpResponse gz status (some b) ct (some "gzip")).writes =
      ["HTTP/1.1 " ++ status ++ "\r\n" ++
          joinWrites ["Content-Type: " ++ ct ++ "\r\n", "Content-Encoding: gzip\r\n",
            "Content-Length: " ++ toString c.length ++ "\r\n"] ++ "\r\n",
        c] := by
  have h1 := HttpResponse_body_gzip gz status b ct c h
  exact ⟨h1, by rw [h1]; rfl⟩

/-- Witness for C5 at a concrete compressor and body. -/
theorem compressed_length_before_headers_witness :
    HttpResponse (fun s => some ("G" ++ s)) StatusOK (some "hi") contentTypePlainText
        (some "gzip") =
      { status := StatusOK,
        headerLines := ["Content-Type: " ++ contentTypePlainText ++ "\r\n",
          "Content-Encoding: gzip\r\n",
          "Content-Length: " ++ toString ("Ghi" : String).length ++ "\r\n"],
        bodyWrites := ["Ghi"] } :=
  (compressed_length_before_headers (fun s => some ("G" ++ s)) StatusOK "hi"
    contentTypePlainText "Ghi" (by decide)).1

/-- Claim C6 rates the code against its own framing discipline: on a mid-copy
read error the loop does not silently abort — it calls `HttpResponse` with
status 500, so a complete second status line and header block are written
onto the connection after the 200 headers and the truncated body.  This
theorem evaluates the copy loop at such a failing script. -/
theorem midstream_read_error_writes_second_response (gz : String → Option String) :
    streamLoop gz [ReadEvent.chunk "ab", ReadEvent.readErr] =
      ["ab",
        "HTTP/1.1 500 Internal Server Error\r\nContent-Type: text/plain\r\n\r\n"] := by
  rfl

/-- Claim C7: a request whose path splits to `["echo", s]` answers 200 with a
plain-text body of exactly `s` — compressed when gzip was negotiated and the
compressor succeeds — and a request whose path splits to just `["echo"]`
answers 200 with an empty body, never 404. -/
theorem echo_returns_argument_verbatim (gz : String → Option String)
    (jp : String → String → String) (req : Request) (directory : String) (fs : FS)
    (s : String) :
    (GetPathSegments req.path = ["echo", s] →
      (Handler gz jp req directory fs).2.status = StatusOK ∧
      (Handler gz jp req directory fs).2.headerLines.head? =
        some ("Content-Type: " ++ contentTypePlainText ++ "\r\n") ∧
      (negotiate req.acceptEncoding = none →
        (Handler gz jp req directory fs).2.bodyBytes = s) ∧
      (∀ c, negotiate req.acceptEncoding = some "gzip" → gz s = some c →
        (Handler gz jp req directory fs).2.bodyBytes = c)) ∧
    (GetPathSegments req.path = ["echo"] →
      (Handler gz jp req directory fs).2.status = StatusOK ∧
      (Handler gz jp req directory fs).2.bodyBytes = "") := by
  constructor
  · intro h
    rw [handler_echo_arg gz jp req directory fs s [] h]
    refine ⟨HttpResponse_status gz StatusOK (some s) contentTypePlainText _,
      HttpResponse_head_ct gz StatusOK (some s) contentTypePlainText _, ?_, ?_⟩
    · intro hne
      rw [hne, HttpResponse_body_plain]
      exact joinWrites_singleton s
    · intro c hgz hc
      rw [hgz, HttpResponse_body_gzip gz StatusOK s contentTypePlainText c hc]
      exact joinWrites_singleton c
  · intro h
    rw [handler_echo_bare gz jp req directory fs h]
    exact ⟨HttpResponse_status gz StatusOK none contentTypePlainText _, rfl⟩

/-- Witness for C7 at a concrete input: `/echo/hey` with no Accept-Encoding
echoes `hey`. -/
theorem echo_returns_argument_verbatim_witness :
    (Handler (fun x => some x) (fun d f => d ++ "/" ++ f)
      ⟨"GET", "/echo/hey", "", "", ""⟩ "d" []).2.bodyBytes = "hey" :=
  ((echo_returns_argument_verbatim (fun x => some x) (fun d f => d ++ "/" ++ f)
      ⟨"GET", "/echo/hey", "", "", ""⟩ "d" [] "hey").1 (by decide)).2.2.1 (by decide)

/-- Claim C10 is false as stated: the bodyless 200 for a bare `/echo` path is
produced with the negotiated content encoding still attached, so when the
client sent `Accept-Encoding: gzip` that response carries a
`Content-Encoding: gzip` header line in addition to the Content-Type line. -/
theorem bodyless_response_counterexample :
    (Handler (fun x => some x) (fun d f => d ++ "/" ++ f)
        ⟨"GET", "/echo", "gzip", "", ""⟩ "d" []).2 =
      { status := StatusOK,
        headerLines := ["Content-Type: text/plain\r\n", "Content-Encoding: gzip\r\n"],
        bodyWrites := [] } ∧
    "Content-Encoding: gzip\r\n" ∈
      (Handler (fun x => some x) (fun d f => d ++ "/" ++ f)
        ⟨"GET", "/echo", "gzip", "", ""⟩ "d" []).2.headerLines := by
  decide

/-- Claim C10 (amended): every bodyless response other than the bare-`echo`
200 — the root-path 200, the 201 after a files POST, every 404, and the 500
shape sent before headers — is exactly the status line, one
`Content-Type: text/plain` header line and the terminating blank line, with
no Content-Length and no Content-Encoding even when the client sent
`Accept-Encoding: gzip`; the bare-`echo` bodyless 200 alone additionally
carries `Content-Encoding: gzip` when gzip was negotiated. -/
theorem bodyless_responses_shape (gz : String → Option String)
    (jp : String → String → String) (req : Request) (directory : String) (fs : FS) :
    (GetPathSegments req.path = [] →
      (Handler gz jp req directory fs).2 =
        { status := StatusOK,
          headerLines := ["Content-Type: " ++ contentTypePlainText ++ "\r\n"],
          bodyWrites := [] }) ∧
    (∀ f rest, GetPathSegments req.path = "files" :: f :: rest → req.method = "POST" →
      (Handler gz jp req directory fs).2 =
        { status := StatusCreated,
          headerLines := ["Content-Type: " ++ contentTypePlainText ++ "\r\n"],
          bodyWrites := [] }) ∧
    (∀ s0 rest, GetPathSegments req.path = s0 :: rest → s0 ∉ validPaths →
      (Handler gz jp req directory fs).2 =
        { status := StatusNotFound,
          headerLines := ["Content-Type: " ++ contentTypePlainText ++ "\r\n"],
          bodyWrites := [] }) ∧
    (GetPathSegments req.path = ["files"] →
      (Handler gz jp req directory fs).2 =
        { status := StatusNotFound,
          headerLines := ["Content-Type: " ++ contentTypePlainText ++ "\r\n"],
          bodyWrites := [] }) ∧
    (∀ f rest, GetPathSegments req.path = "files" :: f :: rest →
      req.method ≠ "GET" → req.method ≠ "POST" →
      (Handler gz jp req directory fs).2 =
        { status := StatusNotFound,
          headerLines := ["Content-Type: " ++ contentTypePlainText ++ "\r\n"],
          bodyWrites := [] }) ∧
    (∀ f rest, GetPathSegments req.path = "files" :: f :: rest →
      req.method = "GET" → lookupFS fs (jp directory f) = none →
      (Handler gz jp req directory fs).2 =
        { status := StatusNotFound,
          headerLines := ["Content-Type: " ++ contentTypePlainText ++ "\r\n"],
          bodyWrites := [] }) ∧
    (HttpResponse gz StatusInternalServerError none contentTypePlainText none =
      { status := StatusInternalServerError,
        headerLines := ["Content-Type: " ++ contentTypePlainText ++ "\r\n"],
        bodyWrites := [] }) ∧
    (GetPathSegments req.path = ["echo"] →
      (negotiate req.acceptEncoding = some "gzip" →
        (Handler gz jp req directory fs).2 =
          { status := StatusOK,
            headerLines := ["Content-Type: " ++ contentTypePlainText ++ "\r\n",
              "Content-Encoding: gzip\r\n"],
            bodyWrites := [] }) ∧
      (negotiate req.acceptEncoding = none →
        (Handler gz jp req directory fs).2 =
          { status := StatusOK,
            headerLines := ["Content-Type: " ++ contentTypePlainText ++ "\r\n"],
            bodyWrites := [] })) := by
  refine ⟨?_, ?_, ?_, ?_, ?_, ?_, rfl, ?_⟩
  · intro h
    rw [handler_root gz jp req directory fs h]
    rfl
  · intro f rest h hm
    rw [handler_files_post gz jp req directory fs f rest h hm]
    rfl
  · intro s0 rest h hv
    rw [handler_unknown gz jp req directory fs s0 rest h hv]
    rfl
  · intro h
    rw [handler_files_bare gz jp req directory fs h]
    rfl
  · intro f rest h hg hp
    rw [handler_files_bad_method gz jp req directory fs f rest h hg hp]
    rfl
  · intro f rest h hm hlk
    rw [handler_files_get_missing gz jp req directory fs f rest h hm hlk]
    rfl
  · intro h
    constructor
    · intro hgz
      rw [handler_echo_bare gz jp req directory fs h, hgz]
      rfl
    · intro hne
      rw [handler_echo_bare gz jp req directory fs h, hne]
      rfl

/-- Witness for amended C10 at concrete inputs: the root path with
Accept-Encoding gzip still answers with only the Content-Type line. -/
theorem bodyless_responses_shape_witness :
    (Handler (fun x => some x) (fun d f => d ++ "/" ++ f)
        ⟨"GET", "/", "gzip", "", ""⟩ "d" []).2 =
      { status := StatusOK,
        headerLines := ["Content-Type: " ++ contentTypePlainText ++ "\r\n"],
        bodyWrites := [] } :=
  (bodyless_responses_shape (fun x => some x) (fun d f => d ++ "/" ++ f)
      ⟨"GET", "/", "gzip", "", ""⟩ "d" []).1 (by decide)

/-- Claim C1: POSTing body `B` (empty included) to `/files/f` stores `B`
under the joined path and answers 201, and a subsequent GET of `/files/f`
answers 200 with body exactly `B` byte for byte — for any Accept-Encoding on
the GET, since the copy loop streams the stored bytes unchanged. -/
theorem files_post_then_get_roundtrip (gz : String → Option String)
    (jp : String → String → String) (directory : String) (fs : FS)
    (f B aePost aeGet uaP uaG : String)
    (h1 : f ≠ "") (h2 : ∀ c ∈ f.data, c ≠ '/') :
    (Handler gz jp ⟨"POST", "/files/" ++ f, aePost, uaP, B⟩ directory fs).2.status
        = StatusCreated ∧
    lookupFS (Handler gz jp ⟨"POST", "/files/" ++ f, aePost, uaP, B⟩ directory fs).1
        (jp directory f) = some B ∧
    (Handler gz jp ⟨"GET", "/files/" ++ f, aeGet, uaG, ""⟩ directory
        (Handler gz jp ⟨"POST", "/files/" ++ f, aePost, uaP, B⟩ directory fs).1).2.status
        = StatusOK ∧
    (Handler gz jp ⟨"GET", "/files/" ++ f, aeGet, uaG, ""⟩ directory
        (Handler gz jp ⟨"POST", "/files/" ++ f, aePost, uaP, B⟩ directory fs).1).2.bodyBytes
        = B := by
  have hseg : GetPathSegments ("/files/" ++ f) = ["files", f] :=
    getPathSegments_files_arg f h1 h2
  have hpost := handler_files_post gz jp ⟨"POST", "/files/" ++ f, aePost, uaP, B⟩
    directory fs f [] hseg rfl
  rw [hpost]
  have hlk : lookupFS (writeFS fs (jp directory f) B) (jp directory f) = some B := by
    simp [writeFS, lookupFS]
  have hget := handler_files_get_found gz jp ⟨"GET", "/files/" ++ f, aeGet, uaG, ""⟩
    directory (writeFS fs (jp directory f) B) f [] B hseg rfl hlk
  rw [hget]
  exact ⟨rfl, hlk, rfl, streamLoop_readScriptOf gz B⟩

/-- Witness for C1 at a concrete input, with the empty body the claim singles
out: POST `/files/a` with empty body then GET `/files/a` gives 201 then 200
with an empty body. -/
theorem files_post_then_get_roundtrip_witness :
    (Handler (fun x => some x) (fun d f => d ++ "/" ++ f)
        ⟨"POST", "/files/a", "", "", ""⟩ "d" []).2.status = StatusCreated ∧
    (Handler (fun x => some x) (fun d f => d ++ "/" ++ f)
        ⟨"GET", "/files/a", "gzip", "", ""⟩ "d"
        (Handler (fun x => some x) (fun d f => d ++ "/" ++ f)
          ⟨"POST", "/files/a", "", "", ""⟩ "d" []).1).2.status = StatusOK ∧
    (Handler (fun x => some x) (fun d f => d ++ "/" ++ f)
        ⟨"GET", "/files/a", "gzip", "", ""⟩ "d"
        (Handler (fun x => some x) (fun d f => d ++ "/" ++ f)
          ⟨"POST", "/files/a", "", "", ""⟩ "d" []).1).2.bodyBytes = "" :=
  ⟨(files_post_then_get_roundtrip (fun x => some x) (fun d f => d ++ "/" ++ f)
      "d" [] "a" "" "" "gzip" "" "" (by decide) (by decide)).1,
   (files_post_then_get_roundtrip (fun x => some x) (fun d f => d ++ "/" ++ f)
      "d" [] "a" "" "" "gzip" "" "" (by decide) (by decide)).2.2.1,
   (files_post_then_get_roundtrip (fun x => some x) (fun d f => d ++ "/" ++ f)
      "d" [] "a" "" "" "gzip" "" "" (by decide) (by decide)).2.2.2⟩

/-- Claim C2 is false as stated.  With the compressor mapping `x` to
`"G" ++ x`: a files-GET with gzip negotiated carries the
`Content-Encoding: gzip` header, yet its body is the raw file bytes `hi` —
identical to the uncompressed-case body and different from the compression
`Ghi` of that body, because the copy loop never compresses.  Moreover a
files-POST that reaches its handler with gzip negotiated answers 201 with no
Content-Encoding header at all. -/
theorem gzip_header_counterexample :
    "Content-Encoding: gzip\r\n" ∈
      (Handler (fun x => some ("G" ++ x)) (fun d f => d ++ "/" ++ f)
        ⟨"GET", "/files/f", "gzip", "", ""⟩ "d" [("d/f", "hi")]).2.headerLines ∧
    (Handler (fun x => some ("G" ++ x)) (fun d f => d ++ "/" ++ f)
        ⟨"GET", "/files/f", "", "", ""⟩ "d" [("d/f", "hi")]).2.bodyBytes = "hi" ∧
    (fun x => (some ("G" ++ x) : Option String))
        ((Handler (fun x => some ("G" ++ x)) (fun d f => d ++ "/" ++ f)
          ⟨"GET", "/files/f", "", "", ""⟩ "d" [("d/f", "hi")]).2.bodyBytes) = some "Ghi" ∧
    (Handler (fun x => some ("G" ++ x)) (fun d f => d ++ "/" ++ f)
        ⟨"GET", "/files/f", "gzip", "", ""⟩ "d" [("d/f", "hi")]).2.bodyBytes = "hi" ∧
    "Ghi" ≠ ("hi" : String) ∧
    "Content-Encoding: gzip\r\n" ∉
      (Handler (fun x => some ("G" ++ x)) (fun d f => d ++ "/" ++ f)
        ⟨"POST", "/files/f", "gzip", "", "x"⟩ "d" []).2.headerLines := by
  decide

/-- Claim C2 (amended): with gzip negotiated, echo-with-argument and
user-agent responses and successful files-GET responses carry a
`Content-Encoding: gzip` header; the two materialized bodies (echo,
user-agent) are the gzip compression of the body the same request receives
without that negotiation (when compression succeeds), but a successful
files-GET response streams the raw uncompressed file bytes despite its
header; bodyless files-route responses carry no Content-Encoding.  With no
gzip negotiated, no response of a route handler carries a Content-Encoding
header — its header lines are exactly a Content-Type line, possibly followed
by a Content-Length line. -/
theorem gzip_negotiated_response_bodies (gz : String → Option String)
    (jp : String → String → String) (req : Request) (directory : String) (fs : FS) :
    (∀ s rest c, GetPathSegments req.path = "echo" :: s :: rest →
      negotiate req.acceptEncoding = some "gzip" → gz s = some c →
      "Content-Encoding: gzip\r\n" ∈ (Handler gz jp req directory fs).2.headerLines ∧
      (Handler gz jp req directory fs).2.bodyBytes = c ∧
      (Handler gz jp { req with acceptEncoding := "" } directory fs).2.bodyBytes = s) ∧
    (∀ rest c, GetPathSegments req.path = "user-agent" :: rest →
      negotiate req.acceptEncoding = some "gzip" → gz req.userAgent = some c →
      "Content-Encoding: gzip\r\n" ∈ (Handler gz jp req directory fs).2.headerLines ∧
      (Handler gz jp req directory fs).2.bodyBytes = c ∧
      (Handler gz jp { req with acceptEncoding := "" } directory fs).2.bodyBytes
        = req.userAgent) ∧
    (∀ f rest contents, GetPathSegments req.path = "files" :: f :: rest →
      req.method = "GET" → lookupFS fs (jp directory f) = some contents →
      negotiate req.acceptEncoding = some "gzip" →
      "Content-Encoding: gzip\r\n" ∈ (Handler gz jp req directory fs).2.headerLines ∧
      (Handler gz jp req directory fs).2.bodyBytes = contents) ∧
    (negotiate req.acceptEncoding = none →
      ∀ s0 rest, GetPathSegments req.path = s0 :: rest → s0 ∈ validPaths →
      ∃ n : Nat,
        (Handler gz jp req directory fs).2.headerLines =
          ["Content-Type: " ++ contentTypePlainText ++ "\r\n"] ∨
        (Handler gz jp req directory fs).2.headerLines =
          ["Content-Type: " ++ contentTypePlainText ++ "\r\n",
            "Content-Length: " ++ toString n ++ "\r\n"] ∨
        (Handler gz jp req directory fs).2.headerLines =
          ["Content-Type: " ++ contentTypeOctetStream ++ "\r\n",
            "Content-Length: " ++ toString n ++ "\r\n"]) := by
  refine ⟨?_, ?_, ?_, ?_⟩
  · intro s rest c h hgz hc
    rw [handler_echo_arg gz jp req directory fs s rest h,
      handler_echo_arg gz jp { req with acceptEncoding := "" } directory fs s rest h]
    show _ ∈ (HttpResponse gz StatusOK (some s) contentTypePlainText
      (negotiate req.acceptEncoding)).headerLines ∧ _
    rw [hgz, HttpResponse_body_gzip gz StatusOK s contentTypePlainText c hc,
      show negotiate ({ req with acceptEncoding := "" } : Request).acceptEncoding = none
        from negotiate_empty,
      HttpResponse_body_plain gz StatusOK s contentTypePlainText]
    exact ⟨by simp, joinWrites_singleton c, joinWrites_singleton s⟩
  · intro rest c h hgz hc
    rw [handler_user_agent_eq gz jp req directory fs rest h,
      handler_user_agent_eq gz jp { req with acceptEncoding := "" } directory fs rest h]
    show _ ∈ (HttpResponse gz StatusOK (some req.userAgent) contentTypePlainText
      (negotiate req.acceptEncoding)).headerLines ∧ _
    rw [hgz, HttpResponse_body_gzip gz StatusOK req.userAgent contentTypePlainText c hc,
      show negotiate ({ req with acceptEncoding := "" } : Request).acceptEncoding = none
        from negotiate_empty,
      HttpResponse_body_plain gz StatusOK req.userAgent contentTypePlainText]
    exact ⟨by simp, joinWrites_singleton c, joinWrites_singleton req.userAgent⟩
  · intro f rest contents h hm hlk hgz
    rw [handler_files_get_found gz jp req directory fs f rest contents h hm hlk, hgz]
    exact ⟨by simp [ceLines], streamLoop_readScriptOf gz contents⟩
  · intro hne s0 rest h hv
    have hv3 : s0 = "echo" ∨ s0 = "user-agent" ∨ s0 = "files" := by
      simpa [validPaths] using hv
    rcases hv3 with h0 | h0 | h0 <;> subst h0
    · cases rest with
      | nil =>
        refine ⟨0, Or.inl ?_⟩
        rw [handler_echo_bare gz jp req directory fs h, hne]
        rfl
      | cons s rest =>
        refine ⟨s.length, Or.inr (Or.inl ?_)⟩
        rw [handler_echo_arg gz jp req directory fs s rest h, hne,
          HttpResponse_body_plain gz StatusOK s contentTypePlainText]
    · refine ⟨req.userAgent.length, Or.inr (Or.inl ?_)⟩
      rw [handler_user_agent_eq gz jp req directory fs rest h, hne,
        HttpResponse_body_plain gz StatusOK req.userAgent contentTypePlainText]
    · cases rest with
      | nil =>
        refine ⟨0, Or.inl ?_⟩
        rw [handler_files_bare gz jp req directory fs h]
        rfl
      | cons f rest =>
        by_cases hm : req.method = "GET"
        · cases hlk : lookupFS fs (jp directory f) with
          | none =>
            refine ⟨0, Or.inl ?_⟩
            rw [handler_files_get_missing gz jp req directory fs f rest h hm hlk]
            rfl
          | some contents =>
            refine ⟨contents.length, Or.inr (Or.inr ?_)⟩
            rw [handler_files_get_found gz jp req directory fs f rest contents h hm hlk,
              hne]
            rfl
        · by_cases hp : req.method = "POST"
          · refine ⟨0, Or.inl ?_⟩
            rw [handler_files_post gz jp req directory fs f rest h hp]
            rfl
          · refine ⟨0, Or.inl ?_⟩
            rw [handler_files_bad_method gz jp req directory fs f rest h hm hp]
            rfl

/-- Witness for amended C2 at a concrete input: `/echo/hi` with
Accept-Encoding gzip and the compressor prepending `G` sends body `Ghi`,
while the same request without the header sends `hi`. -/
theorem gzip_negotiated_response_bodies_witness :
    (Handler (fun x => some ("G" ++ x)) (fun d f => d ++ "/" ++ f)
        ⟨"GET", "/echo/hi", "gzip", "", ""⟩ "d" []).2.bodyBytes = "Ghi" ∧
    (Handler (fun x => some ("G" ++ x)) (fun d f => d ++ "/" ++ f)
        ⟨"GET", "/echo/hi", "", "", ""⟩ "d" []).2.bodyBytes = "hi" :=
  ⟨((gzip_negotiated_response_bodies (fun x => some ("G" ++ x))
        (fun d f => d ++ "/" ++ f) ⟨"GET", "/echo/hi", "gzip", "", ""⟩ "d" []).1
      "hi" [] "Ghi" (by decide) (by decide) (by decide)).2.1,
   ((gzip_negotiated_response_bodies (fun x => some ("G" ++ x))
        (fun d f => d ++ "/" ++ f) ⟨"GET", "/echo/hi", "gzip", "", ""⟩ "d" []).1
      "hi" [] "Ghi" (by decide) (by decide) (by decide)).2.2⟩

end CCHttp
